import Mathlib

/-!
Verification of the argoos event-ingestion HTTP layer (`main.go`).

The Go source is shallowly embedded: each handler becomes a pure Lean
function from the token configuration and the request to the list of
effects it performs, in order (log lines, status/body writes, the body
read, and one `dispatch` per event handed to the impact resolver).
`net/http` response semantics (implicit 200 when the handler returns or
writes a body without an explicit `WriteHeader`) are recovered from the
effect list by `respStatus`/`respBody`.

The `apiutils` package (event decoder `GetEvents`, rollout controller)
is part of the repository but is not among the provided source files;
where a claim depends on it, the definition is modelled from the spec
and marked as such in its doc comment.
-/

namespace Argoos

/-- Whitespace predicate used by Go's `strings.TrimSpace`
(ASCII space characters plus the Latin-1 NEL and NBSP). -/
def goIsSpace (c : Char) : Bool :=
  c == ' ' || c == '\t' || c == '\n' || c == Char.ofNat 11 ||
  c == Char.ofNat 12 || c == '\r' || c == Char.ofNat 0x85 || c == Char.ofNat 0xA0

/-- Embedding of Go's `strings.TrimSpace`: drop leading and trailing
whitespace characters. -/
def trimSpace (s : String) : String :=
  String.mk (((s.data.dropWhile goIsSpace).reverse.dropWhile goIsSpace).reverse)

/-- Modelled from the spec: a decoded push event (apiutils event record
as consumed by `ImpactedDeployments`): registry origin, repository and
tag or digest (§3 PushEvent). -/
structure PushEvent where
  registryOrigin : String
  repository : String
  tag : String
  digest : String
deriving DecidableEq, Repr

/-- Modelled from the spec: one record of the registry notification
envelope: an action name, the target repository, its tag or digest and
the originating registry host (§6, §4.2). -/
structure EventRecord where
  action : String
  repository : String
  tag : String
  digest : String
  host : String
deriving DecidableEq, Repr

/-- The raw request body as handed to the decoder: either bytes that do
not decode as a notification envelope, or a well-formed envelope. -/
inductive RawBody where
  | malformed (raw : String)
  | envelope (records : List EventRecord)
deriving DecidableEq, Repr

/-- Mirror of Go `apiutils.Events`: the value returned by `GetEvents`,
holding the decoded push events in its `Events` field. -/
structure Events where
  Events : List PushEvent
deriving DecidableEq, Repr

/-- Modelled from the spec: `apiutils.GetEvents` (not among the provided
source files). Spec §4.2: decode the notification envelope into push
events, keeping only "push"/"create" actions, using the caller's
registry override when supplied; a malformed envelope fails the whole
batch (no events), the caller logs and discards it. -/
def GetEvents : RawBody → String → Events
  | RawBody.malformed _, _ => { Events := [] }
  | RawBody.envelope records, registry =>
      { Events :=
          (records.filter (fun r => r.action == "push" || r.action == "create")).map
            (fun r =>
              { registryOrigin := if registry.length > 0 then registry else r.host
                repository := r.repository
                tag := r.tag
                digest := r.digest }) }

/-- An inbound HTTP request as the handlers observe it: its headers, the
bytes `ioutil.ReadAll` obtains from the body, and the error (if any)
that `ReadAll` returned alongside those bytes. -/
structure Request where
  headers : List (String × String)
  bodyBytes : RawBody
  readErr : Option String
deriving DecidableEq, Repr

/-- Embedding of Go `http.Header.Get`: the first value stored under the
key, or the empty string when the header is absent. -/
def headerGet (hs : List (String × String)) (key : String) : String :=
  match hs.find? (fun p => p.1 == key) with
  | some p => p.2
  | none => ""

/-- Mirror of Go `BadTokenError`, the sentinel authentication error. -/
inductive BadTokenError where
  | mk
deriving DecidableEq, Repr

/-- Mirror of Go `(*BadTokenError).Error()`. -/
def errMessage : BadTokenError → String
  | BadTokenError.mk => "Bad Token"

/-- Embedding of Go `checkToken` (main.go lines 41-56): with an empty
configured token every request passes; otherwise the trimmed
`X-Argoos-Token` header must be non-empty and equal to the token. -/
def checkToken (tok : String) (r : Request) : Option BadTokenError :=
  if tok = "" then
    none
  else
    let token := trimSpace (headerGet r.headers "X-Argoos-Token")
    if token.length < 1 then some BadTokenError.mk
    else if token = tok then none
    else some BadTokenError.mk

/-- One observable step a handler (or the signal goroutine) performs,
in program order. -/
inductive Effect where
  | logError (msg : String)
  | logAccess
  | logRegistry (registry : String)
  | logSignal
  | writeStatus (code : Nat)
  | writeBody (body : String)
  | readBody
  | dispatch (e : PushEvent)
  | stopRollout
  | exit (code : Nat)
deriving DecidableEq, Repr

/-- Response status recovered from the effect list under `net/http`
semantics: an explicit `WriteHeader` fixes the code; a body write (or
handler return) before any `WriteHeader` fixes 200. -/
def respStatus : List Effect → Nat
  | [] => 200
  | Effect.writeStatus c :: _ => c
  | Effect.writeBody _ :: _ => 200
  | _ :: rest => respStatus rest

/-- Response body: concatenation of all body writes, in order. -/
def respBody : List Effect → String
  | [] => ""
  | Effect.writeBody s :: rest => s ++ respBody rest
  | _ :: rest => respBody rest

/-- Events dispatched to the impact resolver, in dispatch order. -/
def dispatchedEvents : List Effect → List PushEvent
  | [] => []
  | Effect.dispatch e :: rest => e :: dispatchedEvents rest
  | _ :: rest => dispatchedEvents rest

/-- Embedding of Go `Action` (main.go lines 59-77), the `/event`
handler: on a failed token check, log, write 401 and the error text and
return; otherwise log the access, read the body discarding the read
error, decode with the `X-Argoos-Registry-Name` override and hand every
decoded event to `ImpactedDeployments`. -/
def Action (tok : String) (verbose : Bool) (r : Request) : List Effect :=
  match checkToken tok r with
  | some e =>
      [Effect.logError (errMessage e), Effect.writeStatus 401,
       Effect.writeBody (errMessage e)]
  | none =>
      let c := r.bodyBytes
      let registry := headerGet r.headers "X-Argoos-Registry-Name"
      Effect.logAccess :: Effect.readBody ::
        ((if verbose then [Effect.logRegistry registry] else []) ++
          ((GetEvents c registry).Events.map Effect.dispatch))

/-- Embedding of Go `Health` (main.go lines 80-83), the `/healthz`
handler: log the access and write the body, with no status write and no
token check. -/
def Health (_r : Request) : List Effect :=
  [Effect.logAccess, Effect.writeBody "ok\n"]

/-- Embedding of Go `sig` (main.go lines 30-39): after the interrupt
signal is received, `apiutils.StopRollout()` is called and returns, the
signal is logged, and the process exits with code 0. -/
def sigTrace (_s : Nat) : List Effect :=
  [Effect.stopRollout, Effect.logSignal, Effect.exit 0]

/-! ### Helper lemmas -/

theorem length_lt_one_eq_empty (s : String) (h : s.length < 1) : s = "" := by
  cases s with
  | mk l =>
    cases l with
    | nil => rfl
    | cons c cs => simp [String.length] at h

theorem dropWhile_head_not_space (p : Char → Bool) :
    ∀ (l : List Char) (a : Char) (as : List Char),
      l.dropWhile p = a :: as → p a = false := by
  intro l
  induction l with
  | nil => intro a as h; simp [List.dropWhile] at h
  | cons x xs ih =>
      intro a as h
      by_cases hx : p x
      · rw [List.dropWhile_cons_of_pos hx] at h
        exact ih a as h
      · rw [List.dropWhile_cons_of_neg hx] at h
        cases h
        simpa using hx

theorem trimSpace_head_not_space (s : String) (a : Char) (as : List Char)
    (h : (trimSpace s).data = a :: as) : goIsSpace a = false := by
  have hdata : ((s.data.dropWhile goIsSpace).reverse.dropWhile goIsSpace).reverse
      = a :: as := h
  have hm : s.data.dropWhile goIsSpace =
      (a :: as) ++ ((s.data.dropWhile goIsSpace).reverse.takeWhile goIsSpace).reverse := by
    calc s.data.dropWhile goIsSpace
        = (s.data.dropWhile goIsSpace).reverse.reverse := (List.reverse_reverse _).symm
      _ = ((s.data.dropWhile goIsSpace).reverse.takeWhile goIsSpace ++
            (s.data.dropWhile goIsSpace).reverse.dropWhile goIsSpace).reverse := by
            rw [List.takeWhile_append_dropWhile]
      _ = ((s.data.dropWhile goIsSpace).reverse.dropWhile goIsSpace).reverse ++
            ((s.data.dropWhile goIsSpace).reverse.takeWhile goIsSpace).reverse := by
            rw [List.reverse_append]
      _ = (a :: as) ++
            ((s.data.dropWhile goIsSpace).reverse.takeWhile goIsSpace).reverse := by
            rw [hdata]
  obtain ⟨t, ht⟩ : ∃ t, s.data.dropWhile goIsSpace = (a :: as) ++ t := ⟨_, hm⟩
  exact dropWhile_head_not_space goIsSpace s.data a (as ++ t)
    (by rw [ht, List.cons_append])

theorem checkToken_headers_only (tok : String) (r r' : Request)
    (h : headerGet r'.headers "X-Argoos-Token" = headerGet r.headers "X-Argoos-Token") :
    checkToken tok r' = checkToken tok r := by
  unfold checkToken
  rw [h]

/-! ### Claims about the authentication check -/

/-- C1: with a non-empty configured token, the check succeeds exactly when
the whitespace-trimmed `X-Argoos-Token` header value equals the configured
token (a missing header reads as the empty string and so fails), and the
outcome depends on no other request content. -/
theorem auth_enabled_spec (tok : String) (r : Request) (htok : tok ≠ "") :
    (checkToken tok r = none ↔
      trimSpace (headerGet r.headers "X-Argoos-Token") = tok) ∧
    (∀ r' : Request,
      headerGet r'.headers "X-Argoos-Token" = headerGet r.headers "X-Argoos-Token" →
      checkToken tok r' = checkToken tok r) := by
  refine ⟨?_, fun r' h => checkToken_headers_only tok r r' h⟩
  unfold checkToken
  rw [if_neg htok]
  by_cases h1 : (trimSpace (headerGet r.headers "X-Argoos-Token")).length < 1
  · rw [if_pos h1]
    constructor
    · intro h; cases h
    · intro h
      exfalso
      rw [h] at h1
      exact htok (length_lt_one_eq_empty tok h1)
  · rw [if_neg h1]
    by_cases h2 : trimSpace (headerGet r.headers "X-Argoos-Token") = tok
    · rw [if_pos h2]; simp [h2]
    · rw [if_neg h2]; simp [h2]

def rq1 : Request :=
  { headers := [("X-Argoos-Token", "  secret ")]
    bodyBytes := RawBody.envelope []
    readErr := none }

/-- Witness for C1 at a concrete request whose header carries the token
surrounded by whitespace. -/
theorem auth_enabled_spec_witness :
    ("secret" : String) ≠ "" ∧
    (checkToken "secret" rq1 = none ↔
      trimSpace (headerGet rq1.headers "X-Argoos-Token") = "secret") :=
  ⟨by decide, (auth_enabled_spec "secret" rq1 (by decide)).1⟩

/-- C3: with the empty configured token, every request passes the
authentication check, whatever its headers and body. -/
theorem auth_disabled_spec (r : Request) : checkToken "" r = none := by
  unfold checkToken
  rw [if_pos rfl]

/-- C9: a non-empty configured token made only of whitespace characters is
unreachable: the trimmed header value can never equal it, so every request
fails the check. -/
theorem whitespace_token_unreachable (tok : String) (r : Request)
    (hne : tok ≠ "") (hsp : tok.data.all goIsSpace = true) :
    checkToken tok r = some BadTokenError.mk := by
  unfold checkToken
  rw [if_neg hne]
  by_cases h1 : (trimSpace (headerGet r.headers "X-Argoos-Token")).length < 1
  · rw [if_pos h1]
  · rw [if_neg h1]
    have h2 : trimSpace (headerGet r.headers "X-Argoos-Token") ≠ tok := by
      intro he
      obtain ⟨a, as, hdata⟩ :
          ∃ a as, (trimSpace (headerGet r.headers "X-Argoos-Token")).data = a :: as := by
        cases hd : (trimSpace (headerGet r.headers "X-Argoos-Token")).data with
        | nil =>
            exfalso
            apply h1
            show (trimSpace (headerGet r.headers "X-Argoos-Token")).data.length < 1
            rw [hd]
            decide
        | cons a as => exact ⟨a, as, rfl⟩
      have hna := trimSpace_head_not_space _ a as hdata
      rw [he] at hdata
      have hmem : a ∈ tok.data := by rw [hdata]; exact List.mem_cons_self a as
      have : goIsSpace a = true := List.all_eq_true.mp hsp a hmem
      rw [this] at hna
      cases hna
    rw [if_neg h2]

def rq9 : Request :=
  { headers := [("X-Argoos-Token", " ")]
    bodyBytes := RawBody.envelope []
    readErr := none }

/-- Witness for C9 at the single-space token and a request whose header is
itself a single space. -/
theorem whitespace_token_unreachable_witness :
    (" " : String) ≠ "" ∧ (" " : String).data.all goIsSpace = true ∧
    checkToken " " rq9 = some BadTokenError.mk :=
  ⟨by decide, by decide,
    whitespace_token_unreachable " " rq9 (by decide) (by decide)⟩

/-! ### Helper lemmas about the `/event` handler trace -/

theorem Action_of_auth_err (tok : String) (v : Bool) (r : Request) (e : BadTokenError)
    (h : checkToken tok r = some e) :
    Action tok v r =
      [Effect.logError "Bad Token", Effect.writeStatus 401,
       Effect.writeBody "Bad Token"] := by
  unfold Action
  rw [h]
  cases e
  rfl

theorem Action_of_auth_ok (tok : String) (v : Bool) (r : Request)
    (h : checkToken tok r = none) :
    Action tok v r =
      Effect.logAccess :: Effect.readBody ::
        ((if v then [Effect.logRegistry (headerGet r.headers "X-Argoos-Registry-Name")]
          else []) ++
          ((GetEvents r.bodyBytes
              (headerGet r.headers "X-Argoos-Registry-Name")).Events.map
            Effect.dispatch)) := by
  unfold Action
  rw [h]

theorem respStatus_dispatch_map (es : List PushEvent) :
    respStatus (es.map Effect.dispatch) = 200 := by
  induction es with
  | nil => rfl
  | cons e es ih => simpa [respStatus] using ih

theorem dispatchedEvents_dispatch_map (es : List PushEvent) :
    dispatchedEvents (es.map Effect.dispatch) = es := by
  induction es with
  | nil => rfl
  | cons e es ih => simpa [dispatchedEvents] using ih

theorem respStatus_of_auth_ok (tok : String) (v : Bool) (r : Request)
    (h : checkToken tok r = none) : respStatus (Action tok v r) = 200 := by
  rw [Action_of_auth_ok tok v r h]
  cases v <;>
    simp [respStatus, respStatus_dispatch_map]

theorem dispatchedEvents_of_auth_ok (tok : String) (v : Bool) (r : Request)
    (h : checkToken tok r = none) :
    dispatchedEvents (Action tok v r) =
      (GetEvents r.bodyBytes (headerGet r.headers "X-Argoos-Registry-Name")).Events := by
  rw [Action_of_auth_ok tok v r h]
  cases v <;>
    simp [dispatchedEvents, dispatchedEvents_dispatch_map]

/-! ### Claims about the `/event` handler -/

/-- C4: a request that fails the token check gets exactly the
log-401-body trace: status 401, no body read, nothing decoded, nothing
dispatched. -/
theorem auth_failure_response (tok : String) (v : Bool) (r : Request)
    (e : BadTokenError) (h : checkToken tok r = some e) :
    Action tok v r =
      [Effect.logError "Bad Token", Effect.writeStatus 401,
       Effect.writeBody "Bad Token"] ∧
    respStatus (Action tok v r) = 401 ∧
    Effect.readBody ∉ Action tok v r ∧
    dispatchedEvents (Action tok v r) = [] := by
  have hA := Action_of_auth_err tok v r e h
  refine ⟨hA, ?_, ?_, ?_⟩ <;> rw [hA] <;> decide

def rq4 : Request :=
  { headers := []
    bodyBytes := RawBody.envelope
      [{ action := "push", repository := "app", tag := "v2", digest := "",
         host := "registry.local" }]
    readErr := none }

/-- Witness for C4: token configured, request carries no token header. -/
theorem auth_failure_response_witness :
    checkToken "s" rq4 = some BadTokenError.mk ∧
    respStatus (Action "s" true rq4) = 401 ∧
    Effect.readBody ∉ Action "s" true rq4 ∧
    dispatchedEvents (Action "s" true rq4) = [] :=
  ⟨by decide,
    (auth_failure_response "s" true rq4 BadTokenError.mk (by decide)).2.1,
    (auth_failure_response "s" true rq4 BadTokenError.mk (by decide)).2.2.1,
    (auth_failure_response "s" true rq4 BadTokenError.mk (by decide)).2.2.2⟩

def rq2 : Request :=
  { headers := [("X-Argoos-Token", "s")]
    bodyBytes := RawBody.malformed "this is not a notification envelope"
    readErr := none }

/-- C2 counterexample: an authenticated request with a malformed body gets
status 200 - not any 4xx status - and zero dispatched events, because the
handler never writes an error status after a failed decode. -/
theorem malformed_body_status_not_4xx :
    checkToken "s" rq2 = none ∧
    respStatus (Action "s" false rq2) = 200 ∧
    ¬(400 ≤ respStatus (Action "s" false rq2) ∧
      respStatus (Action "s" false rq2) < 500) ∧
    dispatchedEvents (Action "s" false rq2) = [] := by
  decide

/-- C2 (amended): an authenticated request with a malformed body is
answered with status 200 (the implicit success status; no 4xx is ever
written) and dispatches zero events, the decoder discarding the whole
batch. -/
theorem malformed_body_response (tok : String) (v : Bool) (r : Request)
    (raw : String) (hauth : checkToken tok r = none)
    (hbody : r.bodyBytes = RawBody.malformed raw) :
    respStatus (Action tok v r) = 200 ∧
    dispatchedEvents (Action tok v r) = [] := by
  refine ⟨respStatus_of_auth_ok tok v r hauth, ?_⟩
  rw [dispatchedEvents_of_auth_ok tok v r hauth, hbody]
  rfl

/-- Witness for C2's amended claim, at the counterexample request. -/
theorem malformed_body_response_witness :
    checkToken "s" rq2 = none ∧
    rq2.bodyBytes = RawBody.malformed "this is not a notification envelope" ∧
    (respStatus (Action "s" false rq2) = 200 ∧
      dispatchedEvents (Action "s" false rq2) = []) :=
  ⟨by decide, rfl,
    malformed_body_response "s" false rq2
      "this is not a notification envelope" (by decide) rfl⟩

/-- C6: an authenticated request whose body is a well-formed envelope is
answered with status 200, and the dispatched events are exactly all the
decoded events, in order - no event's processing drops a later one. -/
theorem success_dispatch_all (tok : String) (v : Bool) (r : Request)
    (records : List EventRecord) (hauth : checkToken tok r = none)
    (hbody : r.bodyBytes = RawBody.envelope records) :
    respStatus (Action tok v r) = 200 ∧
    dispatchedEvents (Action tok v r) =
      (GetEvents r.bodyBytes (headerGet r.headers "X-Argoos-Registry-Name")).Events ∧
    ∀ e ∈ (GetEvents r.bodyBytes (headerGet r.headers "X-Argoos-Registry-Name")).Events,
      Effect.dispatch e ∈ Action tok v r := by
  refine ⟨respStatus_of_auth_ok tok v r hauth,
    dispatchedEvents_of_auth_ok tok v r hauth, ?_⟩
  intro e he
  rw [Action_of_auth_ok tok v r hauth]
  refine List.mem_cons_of_mem _ (List.mem_cons_of_mem _ ?_)
  exact List.mem_append_right _ (List.mem_map_of_mem _ he)

def rec6 : EventRecord :=
  { action := "push", repository := "app", tag := "v2", digest := "",
    host := "registry.local" }

def rq6 : Request :=
  { headers := [("X-Argoos-Token", "tok6"), ("X-Argoos-Registry-Name", "hub")]
    bodyBytes := RawBody.envelope [rec6]
    readErr := none }

/-- Witness for C6 at a one-record push envelope. -/
theorem success_dispatch_all_witness :
    checkToken "tok6" rq6 = none ∧
    rq6.bodyBytes = RawBody.envelope [rec6] ∧
    respStatus (Action "tok6" true rq6) = 200 ∧
    dispatchedEvents (Action "tok6" true rq6) =
      (GetEvents rq6.bodyBytes (headerGet rq6.headers "X-Argoos-Registry-Name")).Events :=
  ⟨by decide, rfl,
    (success_dispatch_all "tok6" true rq6 [rec6] (by decide) rfl).1,
    (success_dispatch_all "tok6" true rq6 [rec6] (by decide) rfl).2.1⟩

/-- C8: the `X-Argoos-Registry-Name` header value (empty when absent) is
the registry-override argument of the decoder for the dispatched events,
and when it is non-empty every dispatched event carries it as its
registry origin. -/
theorem registry_override_spec (tok : String) (v : Bool) (r : Request)
    (hauth : checkToken tok r = none) :
    dispatchedEvents (Action tok v r) =
      (GetEvents r.bodyBytes (headerGet r.headers "X-Argoos-Registry-Name")).Events ∧
    (headerGet r.headers "X-Argoos-Registry-Name" ≠ "" →
      ∀ e ∈ dispatchedEvents (Action tok v r),
        e.registryOrigin = headerGet r.headers "X-Argoos-Registry-Name") := by
  refine ⟨dispatchedEvents_of_auth_ok tok v r hauth, ?_⟩
  intro hov e he
  rw [dispatchedEvents_of_auth_ok tok v r hauth] at he
  have hlen : 0 < (headerGet r.headers "X-Argoos-Registry-Name").length := by
    by_contra hc
    exact hov (length_lt_one_eq_empty _ (by omega))
  cases hb : r.bodyBytes with
  | malformed raw =>
      rw [hb] at he
      simp [GetEvents] at he
  | envelope records =>
      rw [hb] at he
      simp only [GetEvents, List.mem_map] at he
      obtain ⟨rec, _, hrec⟩ := he
      rw [← hrec]
      simp [hlen]

def rq8 : Request :=
  { headers := [("X-Argoos-Registry-Name", "hub")]
    bodyBytes := RawBody.envelope [rec6]
    readErr := none }

/-- Witness for C8 at an unauthenticated-token-free setup (empty
configured token) with the override header set. -/
theorem registry_override_spec_witness :
    checkToken "" rq8 = none ∧
    dispatchedEvents (Action "" false rq8) =
      (GetEvents rq8.bodyBytes (headerGet rq8.headers "X-Argoos-Registry-Name")).Events :=
  ⟨by decide, (registry_override_spec "" false rq8 (by decide)).1⟩

/-- C10: the body-read error is silently discarded - the handler's whole
effect trace is independent of it, and whatever bytes were read are the
ones handed to the decoder, with a 200 response whenever the token check
passed. -/
theorem read_error_ignored (tok : String) (v : Bool)
    (hs : List (String × String)) (b : RawBody) (o o' : Option String)
    (hauth : checkToken tok { headers := hs, bodyBytes := b, readErr := o } = none) :
    Action tok v { headers := hs, bodyBytes := b, readErr := o } =
      Action tok v { headers := hs, bodyBytes := b, readErr := o' } ∧
    dispatchedEvents (Action tok v { headers := hs, bodyBytes := b, readErr := o }) =
      (GetEvents b (headerGet hs "X-Argoos-Registry-Name")).Events ∧
    respStatus (Action tok v { headers := hs, bodyBytes := b, readErr := o }) = 200 := by
  refine ⟨rfl,
    dispatchedEvents_of_auth_ok tok v _ hauth,
    respStatus_of_auth_ok tok v _ hauth⟩

def rq10 : Request :=
  { headers := [("X-Argoos-Token", "t10")]
    bodyBytes := RawBody.envelope [rec6]
    readErr := some "unexpected EOF" }

/-- Witness for C10: a request whose body read reported an error is
processed identically to the error-free read. -/
theorem read_error_ignored_witness :
    checkToken "t10" rq10 = none ∧
    Action "t10" false rq10 =
      Action "t10" false { headers := rq10.headers, bodyBytes := rq10.bodyBytes,
                           readErr := none } ∧
    respStatus (Action "t10" false rq10) = 200 :=
  ⟨by decide,
    (read_error_ignored "t10" false rq10.headers rq10.bodyBytes
      (some "unexpected EOF") none (by decide)).1,
    (read_error_ignored "t10" false rq10.headers rq10.bodyBytes
      (some "unexpected EOF") none (by decide)).2.2⟩

/-! ### Claims about the liveness probe and shutdown -/

def rq5 : Request :=
  { headers := [], bodyBytes := RawBody.malformed "", readErr := none }

/-- C5 counterexample: the `/healthz` body is the three bytes `ok` plus a
newline, not exactly `ok`. -/
theorem health_body_newline :
    respBody (Health rq5) = "ok\n" ∧ respBody (Health rq5) ≠ "ok" := by
  decide

/-- C5 (amended): every `/healthz` request is answered with status 200
and body `ok` followed by a newline; the trace holds no token check, no
status write, no dispatch, and is the same whatever the request. -/
theorem health_spec (r : Request) :
    Health r = [Effect.logAccess, Effect.writeBody "ok\n"] ∧
    respStatus (Health r) = 200 ∧
    respBody (Health r) = "ok\n" ∧
    dispatchedEvents (Health r) = [] ∧
    (∀ r' : Request, Health r' = Health r) :=
  ⟨rfl, rfl, rfl, rfl, fun _ => rfl⟩

/-- C7: after the interrupt signal is received, the rollout controller's
stop call occurs and completes strictly before the exit step, the trace
ends in the exit step, and the only exit code is 0. -/
theorem shutdown_spec (s : Nat) :
    Effect.stopRollout ∈ sigTrace s ∧
    (sigTrace s).getLast? = some (Effect.exit 0) ∧
    (sigTrace s).indexOf Effect.stopRollout < (sigTrace s).indexOf (Effect.exit 0) ∧
    ∀ c, Effect.exit c ∈ sigTrace s → c = 0 := by
  simp only [sigTrace]
  refine ⟨by decide, by decide, by decide, ?_⟩
  intro c hc
  simp at hc
  exact hc

end Argoos
